import Mathlib

set_option maxHeartbeats 1000000

/- Shallow embedding of `plusplus/patching.py` and `plusplus/wrappers.py`
(borzunov/plusplus).  The `bytecode` library's `Bytecode`/`Instr`/`SetLineno`
values are modelled structurally; `patch_code` converts a code object to its
instruction list and back, which the embedding represents by storing the
instruction list inside the code object directly. -/

mutual

/-- Argument of a bytecode instruction: absent (UNSET), an integer immediate,
a name string, or an embedded code object (a `types.CodeType` constant). -/
inductive Arg : Type where
  | unset : Arg
  | intArg : Int → Arg
  | strArg : String → Arg
  | codeArg : Code → Arg

/-- One `bytecode.Instr`: opcode name, argument, and source line
(`None` when the instruction was synthesized without a line). -/
inductive Instr : Type where
  | mk : String → Arg → Option Nat → Instr

/-- An element of a `bytecode.Bytecode` list: a concrete instruction or a
`SetLineno` pseudo-instruction. -/
inductive BItem : Type where
  | instr : Instr → BItem
  | setLineno : Option Nat → BItem

/-- A code object: `co_filename`, `co_name`, and its instruction list. -/
inductive Code : Type where
  | mk : String → String → List BItem → Code

end

def Instr.name : Instr → String
  | .mk n _ _ => n

def Instr.arg : Instr → Arg
  | .mk _ a _ => a

def Instr.lineno : Instr → Option Nat
  | .mk _ _ l => l

def Code.filename : Code → String
  | .mk f _ _ => f

def Code.unitName : Code → String
  | .mk _ n _ => n

def Code.items : Code → List BItem
  | .mk _ _ its => its

/-- `UNARY_TO_INPLACE_OP` dict: sign opcode to in-place arithmetic opcode. -/
def UNARY_TO_INPLACE_OP (name : String) : Option String :=
  if name == "UNARY_POSITIVE" then some "INPLACE_ADD"
  else if name == "UNARY_NEGATIVE" then some "INPLACE_SUBTRACT"
  else none

/-- `LOAD_TO_STORE_OP` dict: load opcode to the paired store opcode. -/
def LOAD_TO_STORE_OP (name : String) : Option String :=
  if name == "LOAD_DEREF" then some "STORE_DEREF"
  else if name == "LOAD_FAST" then some "STORE_FAST"
  else if name == "LOAD_GLOBAL" then some "STORE_GLOBAL"
  else if name == "LOAD_NAME" then some "STORE_NAME"
  else if name == "LOAD_ATTR" then some "STORE_ATTR"
  else if name == "BINARY_SUBSCR" then some "STORE_SUBSCR"
  else none

/-- `PRE_LOAD_HOOK` dict (with `.get(..., [])` default behaviour). -/
def PRE_LOAD_HOOK (name : String) : List BItem :=
  if name == "LOAD_ATTR" then
    -- Stack: [..., obj] -> [..., obj, obj]
    [.instr (.mk "DUP_TOP" .unset none)]
  else if name == "BINARY_SUBSCR" then
    -- Stack: [..., arr, idx] -> [..., (arr, idx), arr, idx]
    [.instr (.mk "DUP_TOP_TWO" .unset none),
     .instr (.mk "BUILD_TUPLE" (.intArg 2) none),
     .instr (.mk "ROT_THREE" .unset none)]
  else []

/-- `PRE_STORE_HOOK` dict (with `.get(..., [])` default behaviour). -/
def PRE_STORE_HOOK (name : String) : List BItem :=
  if name == "STORE_ATTR" then
    -- Stack: [..., obj, value, value] -> [value, value, obj]
    [.instr (.mk "ROT_THREE" .unset none),
     .instr (.mk "ROT_THREE" .unset none)]
  else if name == "STORE_SUBSCR" then
    -- Stack: [..., (arr, idx), value, value] -> [..., value, value, arr, idx]
    [.instr (.mk "ROT_THREE" .unset none),
     .instr (.mk "ROT_THREE" .unset none),
     .instr (.mk "UNPACK_SEQUENCE" (.intArg 2) none),
     .instr (.mk "ROT_TWO" .unset none)]
  else []

/-- `is_pytest_intermediate_value_capturing`: the region is exactly a
`STORE_FAST`/`LOAD_FAST` pair on the same `@py_assert...` name.  The
`bytecode` library validates that `STORE_FAST`/`LOAD_FAST` instructions
carry `str` name arguments, so the `region[0].arg == region[1].arg` and
`startswith` checks only ever run on strings; `startswith` is modelled on
the character sequence. -/
def is_pytest_intermediate_value_capturing (region : List BItem) : Bool :=
  match region with
  | [.instr i0, .instr i1] =>
    i0.name == "STORE_FAST" && i1.name == "LOAD_FAST" &&
    (match i0.arg, i1.arg with
     | .strArg s0, .strArg s1 =>
       s0 == s1 && List.isPrefixOf "@py_assert".data s0.data
     | _, _ => false)
  | _ => false

/-- The Python `str` of a line number as interpolated by `str.format`. -/
def linenoRepr : Option Nat → String
  | some n => toString n
  | none => "None"

/-- The exception raised on an unsupported increment target.  Modelled as a
structure carrying the formatted message of `make_syntax_error`. -/
structure SyntaxErr : Type where
  msg : String
deriving DecidableEq

/-- `make_syntax_error(message, lineno, code)`. -/
def make_syntax_error (message : String) (lineno : Option Nat) (code : Code) : SyntaxErr :=
  ⟨"File \"" ++ code.filename ++ "\", line " ++ linenoRepr lineno ++ ", in " ++
    code.unitName ++ ": " ++ message⟩

/-- `Patch = namedtuple('Patch', ['n_removed', 'added'])`. -/
structure Patch : Type where
  n_removed : Nat
  added : List BItem

/-- The two in-place slice deletions performed at the top of
`patch_increment_region` (`region[1:3] = []` and `region[2:4] = []`),
modelled functionally; returns the elided region together with the
resulting `n_removed` counter (initialized to 3, +2 per removed pair). -/
def elide_pytest_artifacts (region : List BItem) : List BItem × Nat :=
  let step1 :=
    if is_pytest_intermediate_value_capturing ((region.drop 1).take 2) then
      -- Remove capturing of the LOAD_ATTR/BINARY_SUBSCR result
      (region.take 1 ++ region.drop 3, 5)
    else (region, 3)
  if is_pytest_intermediate_value_capturing ((step1.1.drop 2).take 2) then
    -- Remove capturing of the first UNARY_POSITIVE/NEGATIVE result
    (step1.1.take 2 ++ step1.1.drop 4, step1.2 + 2)
  else step1

/-- `patch_increment_region(region, code)`: `.ok none` models returning
`None`, `.error` models the raised `SyntaxError`. -/
def patch_increment_region (region : List BItem) (code : Code) :
    Except SyntaxErr (Option Patch) :=
  match elide_pytest_artifacts region with
  | (r, n_removed) =>
    match r with
    | .instr load_instr :: .instr unary_instr :: .instr third_instr :: _ =>
      match UNARY_TO_INPLACE_OP unary_instr.name with
      | some inplace_op =>
        if unary_instr.name == third_instr.name then
          match LOAD_TO_STORE_OP load_instr.name with
          | some store_op =>
            .ok (some ⟨n_removed,
              BItem.setLineno load_instr.lineno ::
              PRE_LOAD_HOOK load_instr.name ++
              [.instr load_instr,
               .instr (.mk "LOAD_CONST" (.intArg 1) none),
               .instr (.mk inplace_op .unset none),
               -- One to store, one to return
               .instr (.mk "DUP_TOP" .unset none)] ++
              PRE_STORE_HOOK store_op ++
              [.instr (.mk store_op load_instr.arg none)]⟩)
          | none =>
            .error (make_syntax_error
              "Increment/decrement may be applied only to a variable, a subscriptable item, or an attribute"
              load_instr.lineno code)
        else .ok none
      | none => .ok none
    | _ => .ok none

mutual

/-- `patch_code(code)`: rebuild the instruction list by the left-to-right,
non-backtracking scan and re-embed it into the code object. -/
def patch_code (code : Code) : Except SyntaxErr Code :=
  match code with
  | .mk fname uname items => do
    let new_items ← patch_loop (.mk fname uname items) items
    pure (.mk fname uname new_items)
termination_by sizeOf code
decreasing_by
  simp_wf

/-- The `while index < len(bytecode)` scan of `patch_code`: at each position
try `patch_increment_region` on the 7-instruction window, then
`patch_load_code_region` on the current item, then the default 1-for-1 copy;
advance the cursor by the patch's `n_removed` (always at least 1: the
current item is always consumed, and `n_removed - 1` further items). -/
def patch_loop (code : Code) (items : List BItem) : Except SyntaxErr (List BItem) :=
  match items with
  | [] => pure []
  | x :: rest => do
    match ← patch_increment_region ((x :: rest).take 7) code with
    | some patch => do
      let tail ← patch_loop code (rest.drop (patch.n_removed - 1))
      pure (patch.added ++ tail)
    | none =>
      match ← patch_load_code_region x with
      | some patch => do
        let tail ← patch_loop code (rest.drop (patch.n_removed - 1))
        pure (patch.added ++ tail)
      | none => do
        let tail ← patch_loop code rest
        pure (x :: tail)
termination_by sizeOf items
decreasing_by
  all_goals simp_wf
  all_goals try omega
  all_goals
    (have hd : ∀ (k : Nat) (l : List BItem), sizeOf (List.drop k l) ≤ sizeOf l := by
      intro k l
      induction l generalizing k with
      | nil => cases k <;> simp
      | cons y ys ih =>
        cases k with
        | zero => simp
        | succ n =>
          simp only [List.drop_succ_cons]
          calc sizeOf (List.drop n ys) ≤ sizeOf ys := ih n
            _ ≤ sizeOf (y :: ys) := by simp only [List.cons.sizeOf_spec]; omega
     have h := hd (patch.n_removed - 1) rest
     omega)

/-- `patch_load_code_region(region)` applied to `region[0]` (the scan always
passes the single-element window `bytecode[index:index + 1]`). -/
def patch_load_code_region (item : BItem) : Except SyntaxErr (Option Patch) :=
  match item with
  | .instr (.mk nm (.codeArg c) l) =>
    if nm == "LOAD_CONST" then do
      let patched ← patch_code c
      pure (some ⟨1, [.instr (.mk "LOAD_CONST" (.codeArg patched) l)]⟩)
    else pure none
  | _ => pure none
termination_by sizeOf item
decreasing_by
  simp_wf
  all_goals omega

end

/-- The recognition condition of `patch_increment_region` (the structural
check performed after artifact elision): the elided region starts with three
`Instr` items whose second and third are the same sign opcode.  When this is
false the function returns `None`; a sequence is marker-free when no scan
window satisfies it. -/
def regionMatches (region : List BItem) : Bool :=
  match (elide_pytest_artifacts region).1 with
  | .instr _ :: .instr u :: .instr t :: _ =>
    (UNARY_TO_INPLACE_OP u.name).isSome && (u.name == t.name)
  | _ => false

/-- The recognition condition of `patch_load_code_region`: a `LOAD_CONST`
whose argument is a code object. -/
def isCodeLoad : BItem → Bool
  | .instr (.mk nm (.codeArg _) _) => nm == "LOAD_CONST"
  | _ => false

/-- No scan window of the sequence satisfies the increment-marker
recognition condition (windows are the 7-item lookahead used by the scan). -/
def noMarkers : List BItem → Bool
  | [] => true
  | x :: rest => !(regionMatches ((x :: rest).take 7)) && noMarkers rest

/-- The sequence contains no load of a code-object literal. -/
def noCodeLoads (items : List BItem) : Bool :=
  items.all (fun x => !(isCodeLoad x))

/- Stack discipline of the target VM (CPython 3.x, the opcode set used by
the source, matching the stack-shape comments on `PRE_LOAD_HOOK` and
`PRE_STORE_HOOK`): how many operand-stack slots an opcode pops and then
pushes.  `DUP_TOP`/`DUP_TOP_TWO` read the top without popping;
`ROT_TWO`/`ROT_THREE` permute in place. -/

/-- Pops and pushes of one opcode (with its argument, which fixes the
counts of `BUILD_TUPLE` and `UNPACK_SEQUENCE`). -/
def instrPopsPushes (nm : String) (a : Arg) : Nat × Nat :=
  if nm == "LOAD_FAST" || nm == "LOAD_NAME" || nm == "LOAD_GLOBAL" ||
     nm == "LOAD_DEREF" || nm == "LOAD_CONST" then (0, 1)
  else if nm == "LOAD_ATTR" then (1, 1)
  else if nm == "BINARY_SUBSCR" then (2, 1)
  else if nm == "UNARY_POSITIVE" || nm == "UNARY_NEGATIVE" ||
          nm == "UNARY_NOT" || nm == "UNARY_INVERT" then (1, 1)
  else if nm == "INPLACE_ADD" || nm == "INPLACE_SUBTRACT" then (2, 1)
  else if nm == "DUP_TOP" then (0, 1)
  else if nm == "DUP_TOP_TWO" then (0, 2)
  else if nm == "ROT_TWO" || nm == "ROT_THREE" then (0, 0)
  else if nm == "BUILD_TUPLE" then
    (match a with | .intArg n => (n.toNat, 1) | _ => (0, 1))
  else if nm == "UNPACK_SEQUENCE" then
    (match a with | .intArg n => (1, n.toNat) | _ => (1, 0))
  else if nm == "STORE_FAST" || nm == "STORE_NAME" || nm == "STORE_GLOBAL" ||
          nm == "STORE_DEREF" then (1, 0)
  else if nm == "STORE_ATTR" then (2, 0)
  else if nm == "STORE_SUBSCR" then (3, 0)
  else (0, 0)

/-- Pops and pushes of a bytecode item; `SetLineno` is a pseudo-instruction
with no stack effect. -/
def itemPopsPushes : BItem → Nat × Nat
  | .setLineno _ => (0, 0)
  | .instr (.mk nm a _) => instrPopsPushes nm a

/-- Net stack effect of a sequence: pushes minus pops, summed. -/
def netEffect : List BItem → Int
  | [] => 0
  | x :: rest =>
    ((itemPopsPushes x).2 : Int) - ((itemPopsPushes x).1 : Int) + netEffect rest

/-- Lowest stack level reached while executing the sequence from level
`cur`: each instruction momentarily stands at its entry level minus its
pops; the value for the empty suffix is the current level. -/
def stackLow : List BItem → Int → Int
  | [], cur => cur
  | x :: rest, cur =>
    min (cur - ((itemPopsPushes x).1 : Int))
      (stackLow rest
        (cur - ((itemPopsPushes x).1 : Int) + ((itemPopsPushes x).2 : Int)))

/- Embedding of `plusplus/wrappers.py` (`PatchingFinder` / `PatchingLoader`). -/

/-- A module loader, reduced to the two methods the wrapper touches:
`get_code` and `get_source`. -/
structure Loader : Type where
  get_code : String → Except SyntaxErr Code
  get_source : String → Option String

/-- `PatchingLoader(wrapped_loader)`: `get_code` is piped through
`patch_code`, `get_source` is forwarded unmodified. -/
def PatchingLoader (wrapped : Loader) : Loader where
  get_code := fun fullname => (wrapped.get_code fullname).bind patch_code
  get_source := fun fullname => wrapped.get_source fullname

/-- A module spec, reduced to the loader field that `find_spec` rewrites. -/
structure ModuleSpec : Type where
  loader : Loader

/-- One entry of `sys.meta_path`: either `PatchingFinder` itself (skipped by
the `finder is cls` test) or another finder queried via its `find_spec`. -/
inductive MetaPathEntry : Type where
  | self : MetaPathEntry
  | finder : (String → Option ModuleSpec) → MetaPathEntry

/-- `import_path.split('.')` (Python string split on a separator, modelled
on the character sequence). -/
def splitDots : List Char → List (List Char)
  | [] => [[]]
  | c :: cs =>
    let r := splitDots cs
    if c == '.' then [] :: r
    else
      match r with
      | [] => [[c]]
      | g :: gs => (c :: g) :: gs

/-- The dotted components of a module path. -/
def dottedParts (s : String) : List String :=
  (splitDots s.data).map (fun cs => ⟨cs⟩)

/-- `PatchingFinder._is_patching_needed`: some `'.'.join(parts[:i])` for
`i` in `range(len(parts) + 1)` is a registered import path. -/
def is_patching_needed (patched : List String) (import_path : String) : Bool :=
  let parts := dottedParts import_path
  (List.range (parts.length + 1)).any
    (fun i => patched.contains (String.intercalate "." (parts.take i)))

/-- The `for finder in sys.meta_path` loop body of
`PatchingFinder.find_spec`: skip `cls` itself, and wrap the loader of the
first spec another finder returns. -/
def find_spec_loop : List MetaPathEntry → String → Option ModuleSpec
  | [], _ => none
  | .self :: rest, fullname => find_spec_loop rest fullname
  | .finder f :: rest, fullname =>
    match f fullname with
    | some spec => some ⟨PatchingLoader spec.loader⟩
    | none => find_spec_loop rest fullname

/-- `PatchingFinder.find_spec` for a registered set `patched` and the
current `sys.meta_path`. -/
def find_spec (patched : List String) (meta_path : List MetaPathEntry)
    (fullname : String) : Option ModuleSpec :=
  if is_patching_needed patched fullname then find_spec_loop meta_path fullname
  else none

/-- The first spec produced by a finder other than `PatchingFinder` itself,
before any loader wrapping (used to state what `find_spec` wraps). -/
def meta_path_lookup : List MetaPathEntry → String → Option ModuleSpec
  | [], _ => none
  | .self :: rest, fullname => meta_path_lookup rest fullname
  | .finder f :: rest, fullname =>
    match f fullname with
    | some spec => some spec
    | none => meta_path_lookup rest fullname

/-- The dotted prefixes of a module name in the claim's sense: the full
name itself or an ancestor package path (one to all of the components). -/
def claimDottedPrefixes (fullname : String) : List String :=
  let parts := dottedParts fullname
  (List.range parts.length).map
    (fun i => String.intercalate "." (parts.take (i + 1)))

/-- Inversion of the `UNARY_TO_INPLACE_OP` lookup. -/
theorem unary_op_cases (nm ip : String) (h : UNARY_TO_INPLACE_OP nm = some ip) :
    (nm = "UNARY_POSITIVE" ∧ ip = "INPLACE_ADD") ∨
    (nm = "UNARY_NEGATIVE" ∧ ip = "INPLACE_SUBTRACT") := by
  by_cases h1 : (nm == "UNARY_POSITIVE") = true
  · simp [UNARY_TO_INPLACE_OP, h1] at h
    exact Or.inl ⟨eq_of_beq h1, h.symm⟩
  · by_cases h2 : (nm == "UNARY_NEGATIVE") = true
    · simp [UNARY_TO_INPLACE_OP, h1, h2] at h
      exact Or.inr ⟨eq_of_beq h2, h.symm⟩
    · simp [UNARY_TO_INPLACE_OP, h1, h2] at h

/-- Inversion of the `LOAD_TO_STORE_OP` lookup. -/
theorem load_op_cases (nm st : String) (h : LOAD_TO_STORE_OP nm = some st) :
    (nm = "LOAD_DEREF" ∧ st = "STORE_DEREF") ∨
    (nm = "LOAD_FAST" ∧ st = "STORE_FAST") ∨
    (nm = "LOAD_GLOBAL" ∧ st = "STORE_GLOBAL") ∨
    (nm = "LOAD_NAME" ∧ st = "STORE_NAME") ∨
    (nm = "LOAD_ATTR" ∧ st = "STORE_ATTR") ∨
    (nm = "BINARY_SUBSCR" ∧ st = "STORE_SUBSCR") := by
  by_cases h1 : (nm == "LOAD_DEREF") = true
  · simp [LOAD_TO_STORE_OP, h1] at h
    exact Or.inl ⟨eq_of_beq h1, h.symm⟩
  by_cases h2 : (nm == "LOAD_FAST") = true
  · simp [LOAD_TO_STORE_OP, h1, h2] at h
    exact Or.inr (Or.inl ⟨eq_of_beq h2, h.symm⟩)
  by_cases h3 : (nm == "LOAD_GLOBAL") = true
  · simp [LOAD_TO_STORE_OP, h1, h2, h3] at h
    exact Or.inr (Or.inr (Or.inl ⟨eq_of_beq h3, h.symm⟩))
  by_cases h4 : (nm == "LOAD_NAME") = true
  · simp [LOAD_TO_STORE_OP, h1, h2, h3, h4] at h
    exact Or.inr (Or.inr (Or.inr (Or.inl ⟨eq_of_beq h4, h.symm⟩)))
  by_cases h5 : (nm == "LOAD_ATTR") = true
  · simp [LOAD_TO_STORE_OP, h1, h2, h3, h4, h5] at h
    exact Or.inr (Or.inr (Or.inr (Or.inr (Or.inl ⟨eq_of_beq h5, h.symm⟩))))
  by_cases h6 : (nm == "BINARY_SUBSCR") = true
  · simp [LOAD_TO_STORE_OP, h1, h2, h3, h4, h5, h6] at h
    exact Or.inr (Or.inr (Or.inr (Or.inr (Or.inr ⟨eq_of_beq h6, h.symm⟩))))
  simp [LOAD_TO_STORE_OP, h1, h2, h3, h4, h5, h6] at h

/-- An artifact pair must begin with a `STORE_FAST`. -/
theorem is_pytest_head_not_store (i : Instr) (xs : List BItem)
    (h : (i.name == "STORE_FAST") = false) :
    is_pytest_intermediate_value_capturing (BItem.instr i :: xs) = false := by
  match xs with
  | [] => simp [is_pytest_intermediate_value_capturing]
  | [y] => cases y <;> simp [is_pytest_intermediate_value_capturing, h]
  | y :: z :: zs => simp [is_pytest_intermediate_value_capturing]

/-- When the two instructions after the load are not `STORE_FAST`, the
artifact elision leaves the region unchanged and `n_removed = 3`. -/
theorem elide_no_artifacts (li u1 u2 : Instr) (rest : List BItem)
    (h1 : (u1.name == "STORE_FAST") = false)
    (h2 : (u2.name == "STORE_FAST") = false) :
    elide_pytest_artifacts (.instr li :: .instr u1 :: .instr u2 :: rest) =
      (.instr li :: .instr u1 :: .instr u2 :: rest, 3) := by
  have e1 := is_pytest_head_not_store u1 [BItem.instr u2] h1
  have e2 := is_pytest_head_not_store u2 (rest.take 1) h2
  simp [elide_pytest_artifacts, e1, e2]

/-- Unfolding `patch_increment_region` on a successfully recognized marker,
phrased on the already-elided region. -/
theorem pir_of_elide (region : List BItem) (code : Code) (li u1 u2 : Instr)
    (tail : List BItem) (n : Nat) (ip st : String)
    (he : elide_pytest_artifacts region =
      (.instr li :: .instr u1 :: .instr u2 :: tail, n))
    (hu : UNARY_TO_INPLACE_OP u1.name = some ip)
    (heq : (u1.name == u2.name) = true)
    (hst : LOAD_TO_STORE_OP li.name = some st) :
    patch_increment_region region code =
      .ok (some ⟨n,
        BItem.setLineno li.lineno ::
        PRE_LOAD_HOOK li.name ++
        [.instr li,
         .instr (.mk "LOAD_CONST" (.intArg 1) none),
         .instr (.mk ip .unset none),
         .instr (.mk "DUP_TOP" .unset none)] ++
        PRE_STORE_HOOK st ++
        [.instr (.mk st li.arg none)]⟩) := by
  simp [patch_increment_region, he, hu, heq, hst]

/-- Unfolding `patch_increment_region` on a marker whose load has no paired
store opcode: the `SyntaxError` branch, phrased on the elided region. -/
theorem pir_of_elide_error (region : List BItem) (code : Code) (li u1 u2 : Instr)
    (tail : List BItem) (n : Nat) (ip : String)
    (he : elide_pytest_artifacts region =
      (.instr li :: .instr u1 :: .instr u2 :: tail, n))
    (hu : UNARY_TO_INPLACE_OP u1.name = some ip)
    (heq : (u1.name == u2.name) = true)
    (hst : LOAD_TO_STORE_OP li.name = none) :
    patch_increment_region region code =
      .error (make_syntax_error
        "Increment/decrement may be applied only to a variable, a subscriptable item, or an attribute"
        li.lineno code) := by
  simp [patch_increment_region, he, hu, heq, hst]

/-- A sign opcode is not `STORE_FAST`. -/
theorem unary_not_store (nm ip : String) (h : UNARY_TO_INPLACE_OP nm = some ip) :
    (nm == "STORE_FAST") = false := by
  rcases unary_op_cases nm ip h with ⟨h1, _⟩ | ⟨h1, _⟩ <;> subst h1 <;> decide

/-- `patch_increment_region` on an artifact-free marker window. -/
theorem pir_marker (li u1 u2 : Instr) (rest : List BItem) (code : Code)
    (ip st : String)
    (hu : UNARY_TO_INPLACE_OP u1.name = some ip)
    (heq : (u1.name == u2.name) = true)
    (hst : LOAD_TO_STORE_OP li.name = some st) :
    patch_increment_region (.instr li :: .instr u1 :: .instr u2 :: rest) code =
      .ok (some ⟨3,
        BItem.setLineno li.lineno ::
        PRE_LOAD_HOOK li.name ++
        [.instr li,
         .instr (.mk "LOAD_CONST" (.intArg 1) none),
         .instr (.mk ip .unset none),
         .instr (.mk "DUP_TOP" .unset none)] ++
        PRE_STORE_HOOK st ++
        [.instr (.mk st li.arg none)]⟩) := by
  have h2 : (u2.name == "STORE_FAST") = false := by
    have := eq_of_beq heq
    rw [← this]
    exact unary_not_store u1.name ip hu
  exact pir_of_elide _ code li u1 u2 rest 3 ip st
    (elide_no_artifacts li u1 u2 rest (unary_not_store u1.name ip hu) h2)
    hu heq hst

/-- `patch_increment_region` on an artifact-free marker window whose load
is not one of the four addressing forms: the raising branch. -/
theorem pir_marker_error (li u1 u2 : Instr) (rest : List BItem) (code : Code)
    (ip : String)
    (hu : UNARY_TO_INPLACE_OP u1.name = some ip)
    (heq : (u1.name == u2.name) = true)
    (hst : LOAD_TO_STORE_OP li.name = none) :
    patch_increment_region (.instr li :: .instr u1 :: .instr u2 :: rest) code =
      .error (make_syntax_error
        "Increment/decrement may be applied only to a variable, a subscriptable item, or an attribute"
        li.lineno code) := by
  have h2 : (u2.name == "STORE_FAST") = false := by
    have := eq_of_beq heq
    rw [← this]
    exact unary_not_store u1.name ip hu
  exact pir_of_elide_error _ code li u1 u2 rest 3 ip
    (elide_no_artifacts li u1 u2 rest (unary_not_store u1.name ip hu) h2)
    hu heq hst

/-- A window that fails the recognition condition makes
`patch_increment_region` return `None`. -/
theorem pir_no_match (region : List BItem) (code : Code)
    (h : regionMatches region = false) :
    patch_increment_region region code = .ok none := by
  unfold regionMatches at h
  unfold patch_increment_region
  rcases he : elide_pytest_artifacts region with ⟨r, n⟩
  rw [he] at h
  match r with
  | [] => simp
  | [a] => cases a <;> simp
  | [a, b] => cases a <;> cases b <;> simp
  | a :: b :: c :: tl =>
    cases a with
    | setLineno m => simp
    | instr li =>
      cases b with
      | setLineno m => simp
      | instr u1 =>
        cases c with
        | setLineno m => simp
        | instr u2 =>
          simp only at h
          rcases hu : UNARY_TO_INPLACE_OP u1.name with _ | ip
          · simp [hu]
          · rw [hu] at h
            simp at h
            simp [hu, h]

/-- An item that is not a code-object load makes `patch_load_code_region`
return `None`. -/
theorem plcr_none (x : BItem) (h : isCodeLoad x = false) :
    patch_load_code_region x = .ok none := by
  match x with
  | .setLineno m => simp [patch_load_code_region, pure, Except.pure]
  | .instr (.mk nm a l) =>
    cases a with
    | unset => simp [patch_load_code_region, pure, Except.pure]
    | intArg n => simp [patch_load_code_region, pure, Except.pure]
    | strArg s => simp [patch_load_code_region, pure, Except.pure]
    | codeArg c =>
      have h2 : (nm == "LOAD_CONST") = false := by simpa [isCodeLoad] using h
      simp [patch_load_code_region, h2, pure, Except.pure]

/-- One scan step in which neither matcher fires: the item is copied. -/
theorem patch_loop_cons_copy (code : Code) (x : BItem) (rest : List BItem)
    (h1 : patch_increment_region ((x :: rest).take 7) code = .ok none)
    (h2 : patch_load_code_region x = .ok none) :
    patch_loop code (x :: rest) =
      (patch_loop code rest).map (fun tl => x :: tl) := by
  simp only [List.take_succ_cons] at h1
  rcases hrest : patch_loop code rest with e | tl <;>
  · rw [patch_loop]
    simp [h1, h2, hrest, Bind.bind, Except.bind, Except.map, Functor.map,
      pure, Except.pure]

/-- The scan leaves a marker-free, code-load-free sequence unchanged. -/
theorem patch_loop_id (code : Code) (items : List BItem)
    (h1 : noMarkers items = true) (h2 : noCodeLoads items = true) :
    patch_loop code items = .ok items := by
  induction items with
  | nil => simp [patch_loop, pure, Except.pure]
  | cons x rest ih =>
    rw [noMarkers] at h1
    rw [noCodeLoads, List.all_cons] at h2
    simp only [Bool.and_eq_true, Bool.not_eq_true'] at h1 h2
    rw [patch_loop_cons_copy code x rest (pir_no_match _ code h1.1)
      (plcr_none x h2.1)]
    rw [ih h1.2 h2.2]
    rfl

/-- C5: for every instruction sequence with no doubled unary-sign marker
(no scan window satisfies the recognition condition) and no load of a
code-object literal, `patch_code` returns a code object equal to its input:
every instruction, with its line metadata, is copied through in order, and
no error is raised regardless of which opcodes appear. -/
theorem patch_code_identity_on_clean_code (f nm : String) (items : List BItem)
    (h1 : noMarkers items = true) (h2 : noCodeLoads items = true) :
    patch_code (.mk f nm items) = .ok (.mk f nm items) := by
  rw [patch_code]
  rw [patch_loop_id (.mk f nm items) items h1 h2]
  simp [Bind.bind, Except.bind, pure, Except.pure]

/-- Witness for C5 on a concrete marker-free sequence containing a
pass-through opcode (`RETURN_VALUE`) and a lone sign instruction. -/
theorem patch_code_identity_on_clean_code_witness :
    patch_code (.mk "m.py" "main"
      [.instr (.mk "LOAD_FAST" (.strArg "x") (some 1)),
       .instr (.mk "UNARY_NEGATIVE" .unset (some 1)),
       .instr (.mk "RETURN_VALUE" .unset (some 1))]) =
    .ok (.mk "m.py" "main"
      [.instr (.mk "LOAD_FAST" (.strArg "x") (some 1)),
       .instr (.mk "UNARY_NEGATIVE" .unset (some 1)),
       .instr (.mk "RETURN_VALUE" .unset (some 1))]) :=
  patch_code_identity_on_clean_code "m.py" "main" _ (by decide) (by decide)

/-- C2: a doubled unary-sign marker whose target load is not one of the
four supported addressing forms makes `patch_code` fail with the
`SyntaxError`-class diagnostic naming the offending source line and the
enclosing unit name; no rewritten sequence is produced and the error is
propagated, not recovered. -/
theorem unsupported_target_syntax_error (f nm xname : String) (xarg : Arg)
    (xl l1 l2 : Option Nat) (a1 a2 : Arg) (sg : String) (rest : List BItem)
    (hsg : sg = "UNARY_POSITIVE" ∨ sg = "UNARY_NEGATIVE")
    (hx : LOAD_TO_STORE_OP xname = none) :
    patch_code (.mk f nm (.instr (.mk xname xarg xl) ::
        .instr (.mk sg a1 l1) :: .instr (.mk sg a2 l2) :: rest)) =
      .error ⟨"File \"" ++ f ++ "\", line " ++ linenoRepr xl ++ ", in " ++
        nm ++ ": " ++
        "Increment/decrement may be applied only to a variable, a subscriptable item, or an attribute"⟩ := by
  rcases hsg with h | h
  · subst h
    rw [patch_code]
    simp only [patch_loop, List.take_succ_cons]
    rw [pir_marker_error (.mk xname xarg xl) (.mk "UNARY_POSITIVE" a1 l1)
      (.mk "UNARY_POSITIVE" a2 l2) (rest.take 4) _ "INPLACE_ADD"
      (by simp [Instr.name, UNARY_TO_INPLACE_OP]) (by simp [Instr.name])
      (by simpa [Instr.name] using hx)]
    simp [Bind.bind, Except.bind, make_syntax_error, Code.filename,
      Code.unitName, Instr.lineno]
  · subst h
    rw [patch_code]
    simp only [patch_loop, List.take_succ_cons]
    rw [pir_marker_error (.mk xname xarg xl) (.mk "UNARY_NEGATIVE" a1 l1)
      (.mk "UNARY_NEGATIVE" a2 l2) (rest.take 4) _ "INPLACE_SUBTRACT"
      (by simp [Instr.name, UNARY_TO_INPLACE_OP]) (by simp [Instr.name])
      (by simpa [Instr.name] using hx)]
    simp [Bind.bind, Except.bind, make_syntax_error, Code.filename,
      Code.unitName, Instr.lineno]

/-- Witness for C2: `++` applied to a constant literal on line 9 of unit
`main` of file `t.py`. -/
theorem unsupported_target_syntax_error_witness :
    patch_code (.mk "t.py" "main" (.instr (.mk "LOAD_CONST" (.intArg 5) (some 9)) ::
        .instr (.mk "UNARY_POSITIVE" .unset (some 9)) ::
        .instr (.mk "UNARY_POSITIVE" .unset (some 9)) :: [])) =
      .error ⟨"File \"" ++ "t.py" ++ "\", line " ++ linenoRepr (some 9) ++ ", in " ++
        "main" ++ ": " ++
        "Increment/decrement may be applied only to a variable, a subscriptable item, or an attribute"⟩ :=
  unsupported_target_syntax_error "t.py" "main" "LOAD_CONST" (.intArg 5)
    (some 9) (some 9) (some 9) .unset .unset "UNARY_POSITIVE" []
    (Or.inl rfl) (by decide)

/-- One scan step on a code-object load that is not part of a marker: the
single instruction is replaced by a single load of the recursively patched
code object, keeping the original line number. -/
theorem patch_loop_cons_codeload (code : Code) (c : Code) (l : Option Nat)
    (rest : List BItem)
    (hnm : patch_increment_region
      ((BItem.instr (.mk "LOAD_CONST" (.codeArg c) l) :: rest).take 7) code =
      .ok none) :
    patch_loop code (BItem.instr (.mk "LOAD_CONST" (.codeArg c) l) :: rest) =
      (patch_code c).bind (fun patched =>
        (patch_loop code rest).map
          (fun tl => BItem.instr (.mk "LOAD_CONST" (.codeArg patched) l) :: tl)) := by
  simp only [List.take_succ_cons] at hnm
  have hplcr : patch_load_code_region
      (BItem.instr (.mk "LOAD_CONST" (.codeArg c) l)) =
      (patch_code c).map (fun patched =>
        some (Patch.mk 1 [BItem.instr (.mk "LOAD_CONST" (.codeArg patched) l)])) := by
    rw [patch_load_code_region]
    rcases patch_code c with e | c2 <;>
      simp [Bind.bind, Except.bind, Except.map, Functor.map, pure, Except.pure]
  rcases hc : patch_code c with e | c2
  · rw [patch_loop]
    simp [hnm, hplcr, hc, Bind.bind, Except.bind, Except.map, Functor.map,
      pure, Except.pure]
  · rcases hl : patch_loop code rest with e2 | tl <;>
    · rw [patch_loop]
      simp [hnm, hplcr, hc, hl, Bind.bind, Except.bind, Except.map,
        Functor.map, pure, Except.pure]

/-- C7: a load of a code-object literal that is not part of a recognized
marker is consumed alone, and exactly one instruction is emitted for it: a
load of the recursively rewritten code object carrying the original line
number, after which the scan resumes on the remaining items.  Markers in
nested units at any depth are therefore rewritten by the single outer call. -/
theorem nested_code_rewrite (f nm : String) (c : Code) (l : Option Nat)
    (rest : List BItem)
    (hnm : patch_increment_region
      ((BItem.instr (.mk "LOAD_CONST" (.codeArg c) l) :: rest).take 7)
      (.mk f nm (BItem.instr (.mk "LOAD_CONST" (.codeArg c) l) :: rest)) =
      .ok none) :
    patch_code (.mk f nm (BItem.instr (.mk "LOAD_CONST" (.codeArg c) l) :: rest)) =
      (patch_code c).bind (fun patched =>
        (patch_loop (.mk f nm (BItem.instr (.mk "LOAD_CONST" (.codeArg c) l) :: rest)) rest).map
          (fun tl => Code.mk f nm
            (BItem.instr (.mk "LOAD_CONST" (.codeArg patched) l) :: tl))) := by
  rw [patch_code]
  rw [patch_loop_cons_codeload _ c l rest hnm]
  rcases hc : patch_code c with e | c2
  · simp [hc, Bind.bind, Except.bind, Except.map, Functor.map, pure, Except.pure]
  · rcases hl : patch_loop (.mk f nm
        (BItem.instr (.mk "LOAD_CONST" (.codeArg c) l) :: rest)) rest with e2 | tl <;>
      simp [hc, hl, Bind.bind, Except.bind, Except.map, Functor.map, pure,
        Except.pure]

/-- Witness for C7: a nested unit containing a local increment marker,
embedded as a literal in an otherwise empty outer unit. -/
theorem nested_code_rewrite_witness :
    patch_code (.mk "t.py" "outer" (BItem.instr (.mk "LOAD_CONST"
        (.codeArg (.mk "t.py" "inner"
          [.instr (.mk "LOAD_FAST" (.strArg "y") (some 3)),
           .instr (.mk "UNARY_POSITIVE" .unset (some 3)),
           .instr (.mk "UNARY_POSITIVE" .unset (some 3))])) (some 4)) :: [])) =
      (patch_code (.mk "t.py" "inner"
          [.instr (.mk "LOAD_FAST" (.strArg "y") (some 3)),
           .instr (.mk "UNARY_POSITIVE" .unset (some 3)),
           .instr (.mk "UNARY_POSITIVE" .unset (some 3))])).bind (fun patched =>
        (patch_loop (.mk "t.py" "outer" (BItem.instr (.mk "LOAD_CONST"
            (.codeArg (.mk "t.py" "inner"
              [.instr (.mk "LOAD_FAST" (.strArg "y") (some 3)),
               .instr (.mk "UNARY_POSITIVE" .unset (some 3)),
               .instr (.mk "UNARY_POSITIVE" .unset (some 3))])) (some 4)) :: [])) []).map
          (fun tl => Code.mk "t.py" "outer"
            (BItem.instr (.mk "LOAD_CONST" (.codeArg patched) (some 4)) :: tl))) :=
  nested_code_rewrite "t.py" "outer" _ (some 4) [] (by rfl)

/-- The artifact-elision counter starts at 3 and only grows. -/
theorem elide_n_ge_three (region : List BItem) :
    3 ≤ (elide_pytest_artifacts region).2 := by
  unfold elide_pytest_artifacts
  split <;> dsimp only <;> split <;> simp

/-- C9: every patch of the scan consumes at least one instruction — an
increment patch consumes its `n_removed` of at least 3, and a code-load
patch consumes exactly 1 — so the cursor of `patch_code` strictly advances
and the recursion into code-object literals is on strictly smaller
embedded objects (the scan and recursion are total functions). -/
theorem patches_consume_at_least_one :
    (∀ (region : List BItem) (code : Code) (p : Patch),
      patch_increment_region region code = .ok (some p) → 1 ≤ p.n_removed) ∧
    (∀ (x : BItem) (p : Patch),
      patch_load_code_region x = .ok (some p) → p.n_removed = 1) := by
  constructor
  · intro region code p h
    have hn := elide_n_ge_three region
    unfold patch_increment_region at h
    rcases he : elide_pytest_artifacts region with ⟨r, n⟩
    rw [he] at h hn
    simp only at hn
    repeat split at h
    all_goals first
      | exact Except.noConfusion h
      | (injection h with h2; exact Option.noConfusion h2)
      | (injection h with h2; injection h2 with h3; rw [← h3]; simp_all; omega)
  · intro x p h
    cases x with
    | setLineno m =>
      rw [plcr_none (BItem.setLineno m) rfl] at h
      simp at h
    | instr li =>
      cases li with
      | mk nm a l =>
        cases a with
        | unset =>
          rw [plcr_none (BItem.instr (.mk nm .unset l)) rfl] at h
          simp at h
        | intArg k =>
          rw [plcr_none (BItem.instr (.mk nm (.intArg k) l)) rfl] at h
          simp at h
        | strArg s2 =>
          rw [plcr_none (BItem.instr (.mk nm (.strArg s2) l)) rfl] at h
          simp at h
        | codeArg c =>
          rw [patch_load_code_region] at h
          split at h
          · rcases hc : patch_code c with e | c2
            · rw [hc] at h
              simp [Bind.bind, Except.bind, pure, Except.pure] at h
            · rw [hc] at h
              simp only [Bind.bind, Except.bind, pure, Except.pure] at h
              rw [Except.ok.injEq, Option.some.injEq] at h
              rw [← h]
          · simp [pure, Except.pure] at h

/-- Witness for C9, applying both parts at concrete patches: the local
increment marker (consuming 3) and a code-object load (consuming 1). -/
theorem patches_consume_at_least_one_witness :
    1 ≤ (Patch.mk 3
      [BItem.setLineno (some 3),
       .instr (.mk "LOAD_FAST" (.strArg "x") (some 3)),
       .instr (.mk "LOAD_CONST" (.intArg 1) none),
       .instr (.mk "INPLACE_ADD" .unset none),
       .instr (.mk "DUP_TOP" .unset none),
       .instr (.mk "STORE_FAST" (.strArg "x") none)]).n_removed ∧
    (Patch.mk 1 [BItem.instr (.mk "LOAD_CONST"
      (.codeArg (.mk "t.py" "g" [])) (some 2))]).n_removed = 1 := by
  constructor
  · exact patches_consume_at_least_one.1
      [.instr (.mk "LOAD_FAST" (.strArg "x") (some 3)),
       .instr (.mk "UNARY_POSITIVE" .unset (some 3)),
       .instr (.mk "UNARY_POSITIVE" .unset (some 3))]
      (.mk "t.py" "f" []) _ (by rfl)
  · exact patches_consume_at_least_one.2
      (.instr (.mk "LOAD_CONST" (.codeArg (.mk "t.py" "g" [])) (some 2))) _
      (by simp [patch_load_code_region, patch_code, patch_loop, Bind.bind,
        Except.bind, pure, Except.pure])

/-- C10: two consecutive unary instructions that are not two identical sign
operations — doubled `UNARY_NOT` or `UNARY_INVERT`, or a `UNARY_POSITIVE`
next to a `UNARY_NEGATIVE` — are never recognized as a marker: after a load
of any of the four addressing forms (and with the remainder of the sequence
free of markers and code-object loads), `patch_code` copies everything
through unchanged and raises no error. -/
theorem non_sign_unary_pairs_pass_through (f nm ln : String) (a : Arg)
    (l lu1 lu2 : Option Nat) (b1 b2 : Arg) (u1n u2n : String)
    (rest : List BItem)
    (hload : ln ∈ ["LOAD_FAST", "LOAD_NAME", "LOAD_GLOBAL", "LOAD_DEREF",
      "LOAD_ATTR", "BINARY_SUBSCR"])
    (hpair : (u1n, u2n) ∈ [("UNARY_NOT", "UNARY_NOT"),
      ("UNARY_INVERT", "UNARY_INVERT"),
      ("UNARY_POSITIVE", "UNARY_NEGATIVE"),
      ("UNARY_NEGATIVE", "UNARY_POSITIVE")])
    (hm : noMarkers (.instr (.mk u1n b1 lu1) :: .instr (.mk u2n b2 lu2) ::
      rest) = true)
    (hc : noCodeLoads (.instr (.mk u1n b1 lu1) :: .instr (.mk u2n b2 lu2) ::
      rest) = true) :
    patch_code (.mk f nm (.instr (.mk ln a l) ::
        .instr (.mk u1n b1 lu1) :: .instr (.mk u2n b2 lu2) :: rest)) =
      .ok (.mk f nm (.instr (.mk ln a l) ::
        .instr (.mk u1n b1 lu1) :: .instr (.mk u2n b2 lu2) :: rest)) := by
  have hlncl : isCodeLoad (.instr (.mk ln a l)) = false := by
    simp only [List.mem_cons, List.not_mem_nil, or_false] at hload
    rcases hload with h | h | h | h | h | h <;> subst h <;>
      cases a <;> simp [isCodeLoad]
  have hfacts : ((u1n == "STORE_FAST") = false) ∧
      ((u2n == "STORE_FAST") = false) ∧
      (((UNARY_TO_INPLACE_OP u1n).isSome && (u1n == u2n)) = false) := by
    simp only [List.mem_cons, List.not_mem_nil, or_false, Prod.mk.injEq] at hpair
    rcases hpair with ⟨e1, e2⟩ | ⟨e1, e2⟩ | ⟨e1, e2⟩ | ⟨e1, e2⟩ <;>
      subst e1 <;> subst e2 <;> exact ⟨by decide, by decide, by decide⟩
  obtain ⟨hns1, hns2, hnm2⟩ := hfacts
  have hm0 : regionMatches (.instr (.mk ln a l) ::
      .instr (.mk u1n b1 lu1) :: .instr (.mk u2n b2 lu2) ::
      rest.take 4) = false := by
    unfold regionMatches
    rw [elide_no_artifacts (.mk ln a l) (.mk u1n b1 lu1) (.mk u2n b2 lu2)
      (rest.take 4) hns1 hns2]
    simpa [Instr.name] using hnm2
  have hfm : noMarkers (.instr (.mk ln a l) ::
      .instr (.mk u1n b1 lu1) :: .instr (.mk u2n b2 lu2) :: rest) = true := by
    rw [noMarkers]
    simp only [List.take_succ_cons]
    simp [hm0, hm]
  have hfc : noCodeLoads (.instr (.mk ln a l) ::
      .instr (.mk u1n b1 lu1) :: .instr (.mk u2n b2 lu2) :: rest) = true := by
    rw [noCodeLoads, List.all_cons]
    rw [noCodeLoads] at hc
    simp [hlncl, hc]
  rw [patch_code]
  rw [patch_loop_id _ _ hfm hfc]
  simp [Bind.bind, Except.bind, pure, Except.pure]

/-- Witness for C10: `not not x` compiled as `LOAD_FAST x` followed by two
`UNARY_NOT` instructions is left untouched. -/
theorem non_sign_unary_pairs_pass_through_witness :
    patch_code (.mk "t.py" "f" [.instr (.mk "LOAD_FAST" (.strArg "x") (some 2)),
        .instr (.mk "UNARY_NOT" .unset (some 2)),
        .instr (.mk "UNARY_NOT" .unset (some 2))]) =
      .ok (.mk "t.py" "f" [.instr (.mk "LOAD_FAST" (.strArg "x") (some 2)),
        .instr (.mk "UNARY_NOT" .unset (some 2)),
        .instr (.mk "UNARY_NOT" .unset (some 2))]) :=
  non_sign_unary_pairs_pass_through "t.py" "f" "LOAD_FAST" (.strArg "x")
    (some 2) (some 2) (some 2) .unset .unset "UNARY_NOT" "UNARY_NOT" []
    (by decide) (by decide) (by decide) (by decide)

/-- C1: for every recognized marker whose load `L` has one of the four
supported addressing forms and whose doubled sign is `S`, the replacement
emitted by `patch_increment_region` is exactly: a line marker carrying
`L`'s source line; the form's pre-load shaping (empty for the
local/name/global/deref forms, `DUP_TOP` for attribute, and `DUP_TOP_TWO;
BUILD_TUPLE 2; ROT_THREE` for subscript); `L` itself unchanged;
`LOAD_CONST 1`; `INPLACE_ADD` if `S` is `UNARY_POSITIVE` and
`INPLACE_SUBTRACT` if `S` is `UNARY_NEGATIVE`; `DUP_TOP`; the form's
pre-store shaping; and the store opcode paired to `L`'s load opcode,
carrying `L`'s argument. -/
theorem increment_replacement_exact (ln st : String)
    (pre post : List BItem) (a u1a u2a : Arg) (l l1 l2 : Option Nat)
    (sg ip : String) (rest : List BItem) (code : Code)
    (hform : (ln, st, pre, post) ∈ [
      ("LOAD_FAST", "STORE_FAST", ([] : List BItem), ([] : List BItem)),
      ("LOAD_NAME", "STORE_NAME", [], []),
      ("LOAD_GLOBAL", "STORE_GLOBAL", [], []),
      ("LOAD_DEREF", "STORE_DEREF", [], []),
      ("LOAD_ATTR", "STORE_ATTR",
        [.instr (.mk "DUP_TOP" .unset none)],
        [.instr (.mk "ROT_THREE" .unset none),
         .instr (.mk "ROT_THREE" .unset none)]),
      ("BINARY_SUBSCR", "STORE_SUBSCR",
        [.instr (.mk "DUP_TOP_TWO" .unset none),
         .instr (.mk "BUILD_TUPLE" (.intArg 2) none),
         .instr (.mk "ROT_THREE" .unset none)],
        [.instr (.mk "ROT_THREE" .unset none),
         .instr (.mk "ROT_THREE" .unset none),
         .instr (.mk "UNPACK_SEQUENCE" (.intArg 2) none),
         .instr (.mk "ROT_TWO" .unset none)])])
    (hsg : (sg, ip) ∈ [("UNARY_POSITIVE", "INPLACE_ADD"),
      ("UNARY_NEGATIVE", "INPLACE_SUBTRACT")]) :
    patch_increment_region (.instr (.mk ln a l) ::
        .instr (.mk sg u1a l1) :: .instr (.mk sg u2a l2) :: rest) code =
      .ok (some ⟨3,
        BItem.setLineno l :: pre ++
        [.instr (.mk ln a l),
         .instr (.mk "LOAD_CONST" (.intArg 1) none),
         .instr (.mk ip .unset none),
         .instr (.mk "DUP_TOP" .unset none)] ++
        post ++
        [.instr (.mk st a none)]⟩) := by
  have hu : UNARY_TO_INPLACE_OP sg = some ip := by
    simp only [List.mem_cons, List.not_mem_nil, or_false, Prod.mk.injEq] at hsg
    rcases hsg with ⟨e1, e2⟩ | ⟨e1, e2⟩ <;> subst e1 <;> subst e2 <;> decide
  have hst : LOAD_TO_STORE_OP ln = some st := by
    simp only [List.mem_cons, List.not_mem_nil, or_false, Prod.mk.injEq] at hform
    rcases hform with ⟨e1, e2, _, _⟩ | ⟨e1, e2, _, _⟩ | ⟨e1, e2, _, _⟩ |
      ⟨e1, e2, _, _⟩ | ⟨e1, e2, _, _⟩ | ⟨e1, e2, _, _⟩ <;>
      subst e1 <;> subst e2 <;> decide
  have hpre : PRE_LOAD_HOOK ln = pre := by
    simp only [List.mem_cons, List.not_mem_nil, or_false, Prod.mk.injEq] at hform
    rcases hform with ⟨e1, _, e3, _⟩ | ⟨e1, _, e3, _⟩ | ⟨e1, _, e3, _⟩ |
      ⟨e1, _, e3, _⟩ | ⟨e1, _, e3, _⟩ | ⟨e1, _, e3, _⟩ <;>
      subst e1 <;> subst e3 <;> rfl
  have hpost : PRE_STORE_HOOK st = post := by
    simp only [List.mem_cons, List.not_mem_nil, or_false, Prod.mk.injEq] at hform
    rcases hform with ⟨_, e2, _, e4⟩ | ⟨_, e2, _, e4⟩ | ⟨_, e2, _, e4⟩ |
      ⟨_, e2, _, e4⟩ | ⟨_, e2, _, e4⟩ | ⟨_, e2, _, e4⟩ <;>
      subst e2 <;> subst e4 <;> rfl
  rw [pir_marker (.mk ln a l) (.mk sg u1a l1) (.mk sg u2a l2) rest code ip st
    (by simpa [Instr.name] using hu) (by simp [Instr.name])
    (by simpa [Instr.name] using hst)]
  simp [Instr.name, Instr.arg, Instr.lineno, hpre, hpost]

/-- Witness for C1 at the subscript form with the decrement sign. -/
theorem increment_replacement_exact_witness :
    patch_increment_region
      [.instr (.mk "BINARY_SUBSCR" .unset (some 8)),
       .instr (.mk "UNARY_NEGATIVE" .unset (some 8)),
       .instr (.mk "UNARY_NEGATIVE" .unset (some 8))] (.mk "t.py" "f" []) =
      .ok (some ⟨3,
        BItem.setLineno (some 8) ::
        [.instr (.mk "DUP_TOP_TWO" .unset none),
         .instr (.mk "BUILD_TUPLE" (.intArg 2) none),
         .instr (.mk "ROT_THREE" .unset none)] ++
        [.instr (.mk "BINARY_SUBSCR" .unset (some 8)),
         .instr (.mk "LOAD_CONST" (.intArg 1) none),
         .instr (.mk "INPLACE_SUBTRACT" .unset none),
         .instr (.mk "DUP_TOP" .unset none)] ++
        [.instr (.mk "ROT_THREE" .unset none),
         .instr (.mk "ROT_THREE" .unset none),
         .instr (.mk "UNPACK_SEQUENCE" (.intArg 2) none),
         .instr (.mk "ROT_TWO" .unset none)] ++
        [.instr (.mk "STORE_SUBSCR" .unset none)]⟩) :=
  increment_replacement_exact "BINARY_SUBSCR" "STORE_SUBSCR"
    [.instr (.mk "DUP_TOP_TWO" .unset none),
     .instr (.mk "BUILD_TUPLE" (.intArg 2) none),
     .instr (.mk "ROT_THREE" .unset none)]
    [.instr (.mk "ROT_THREE" .unset none),
     .instr (.mk "ROT_THREE" .unset none),
     .instr (.mk "UNPACK_SEQUENCE" (.intArg 2) none),
     .instr (.mk "ROT_TWO" .unset none)]
    .unset .unset .unset (some 8) (some 8) (some 8)
    "UNARY_NEGATIVE" "INPLACE_SUBTRACT" [] (.mk "t.py" "f" [])
    (by simp) (by simp)

/-- Elision of a capture pair sitting right after the load. -/
theorem elide_pair_after_load (li u1 u2 : Instr) (s1 : String)
    (ls1 ls2 : Option Nat) (rest : List BItem)
    (hpre : List.isPrefixOf "@py_assert".data s1.data = true)
    (hu2 : (u2.name == "STORE_FAST") = false) :
    elide_pytest_artifacts (.instr li ::
        .instr (.mk "STORE_FAST" (.strArg s1) ls1) ::
        .instr (.mk "LOAD_FAST" (.strArg s1) ls2) ::
        .instr u1 :: .instr u2 :: rest) =
      (.instr li :: .instr u1 :: .instr u2 :: rest, 5) := by
  have h1 : is_pytest_intermediate_value_capturing
      [BItem.instr (.mk "STORE_FAST" (.strArg s1) ls1),
       BItem.instr (.mk "LOAD_FAST" (.strArg s1) ls2)] = true := by
    simp [is_pytest_intermediate_value_capturing, Instr.name, Instr.arg, hpre]
  have h2 := is_pytest_head_not_store u2 (rest.take 1) hu2
  simp [elide_pytest_artifacts, h1, h2]

/-- Elision of a capture pair sitting right after the first sign. -/
theorem elide_pair_after_sign (li u1 u2 : Instr) (s2 : String)
    (ls3 ls4 : Option Nat) (rest : List BItem)
    (hpre : List.isPrefixOf "@py_assert".data s2.data = true)
    (hu1 : (u1.name == "STORE_FAST") = false) :
    elide_pytest_artifacts (.instr li :: .instr u1 ::
        .instr (.mk "STORE_FAST" (.strArg s2) ls3) ::
        .instr (.mk "LOAD_FAST" (.strArg s2) ls4) ::
        .instr u2 :: rest) =
      (.instr li :: .instr u1 :: .instr u2 :: rest, 5) := by
  have h1 := is_pytest_head_not_store u1
    [BItem.instr (.mk "STORE_FAST" (.strArg s2) ls3)] hu1
  have h2 : is_pytest_intermediate_value_capturing
      [BItem.instr (.mk "STORE_FAST" (.strArg s2) ls3),
       BItem.instr (.mk "LOAD_FAST" (.strArg s2) ls4)] = true := by
    simp [is_pytest_intermediate_value_capturing, Instr.name, Instr.arg, hpre]
  simp [elide_pytest_artifacts, h1, h2]

/-- Elision of capture pairs in both positions. -/
theorem elide_pair_both (li u1 u2 : Instr) (s1 s2 : String)
    (ls1 ls2 ls3 ls4 : Option Nat) (rest : List BItem)
    (hpre1 : List.isPrefixOf "@py_assert".data s1.data = true)
    (hpre2 : List.isPrefixOf "@py_assert".data s2.data = true) :
    elide_pytest_artifacts (.instr li ::
        .instr (.mk "STORE_FAST" (.strArg s1) ls1) ::
        .instr (.mk "LOAD_FAST" (.strArg s1) ls2) ::
        .instr u1 ::
        .instr (.mk "STORE_FAST" (.strArg s2) ls3) ::
        .instr (.mk "LOAD_FAST" (.strArg s2) ls4) ::
        .instr u2 :: rest) =
      (.instr li :: .instr u1 :: .instr u2 :: rest, 7) := by
  have h1 : is_pytest_intermediate_value_capturing
      [BItem.instr (.mk "STORE_FAST" (.strArg s1) ls1),
       BItem.instr (.mk "LOAD_FAST" (.strArg s1) ls2)] = true := by
    simp [is_pytest_intermediate_value_capturing, Instr.name, Instr.arg, hpre1]
  have h2 : is_pytest_intermediate_value_capturing
      [BItem.instr (.mk "STORE_FAST" (.strArg s2) ls3),
       BItem.instr (.mk "LOAD_FAST" (.strArg s2) ls4)] = true := by
    simp [is_pytest_intermediate_value_capturing, Instr.name, Instr.arg, hpre2]
  simp [elide_pytest_artifacts, h1, h2]

/-- C6: inserting a pytest intermediate-capture pair (a `STORE_FAST`
immediately followed by a `LOAD_FAST` of the same `@py_assert...` name)
after the load and/or after the first sign instruction leaves the emitted
replacement sequence identical to the artifact-free one, and the consumed
count is exactly 3 plus 2 per removed pair (3, 5, or 7). -/
theorem artifact_tolerance (ln st sg ip : String) (a u1a u2a : Arg)
    (l l1 l2 ls1 ls2 ls3 ls4 : Option Nat) (s1 s2 : String)
    (rest : List BItem) (code : Code)
    (hst : LOAD_TO_STORE_OP ln = some st)
    (hu : UNARY_TO_INPLACE_OP sg = some ip)
    (hp1 : List.isPrefixOf "@py_assert".data s1.data = true)
    (hp2 : List.isPrefixOf "@py_assert".data s2.data = true) :
    ∃ added : List BItem,
      patch_increment_region (.instr (.mk ln a l) ::
        .instr (.mk sg u1a l1) :: .instr (.mk sg u2a l2) :: rest) code =
        .ok (some ⟨3, added⟩) ∧
      patch_increment_region (.instr (.mk ln a l) ::
        .instr (.mk "STORE_FAST" (.strArg s1) ls1) ::
        .instr (.mk "LOAD_FAST" (.strArg s1) ls2) ::
        .instr (.mk sg u1a l1) :: .instr (.mk sg u2a l2) :: rest) code =
        .ok (some ⟨5, added⟩) ∧
      patch_increment_region (.instr (.mk ln a l) ::
        .instr (.mk sg u1a l1) ::
        .instr (.mk "STORE_FAST" (.strArg s2) ls3) ::
        .instr (.mk "LOAD_FAST" (.strArg s2) ls4) ::
        .instr (.mk sg u2a l2) :: rest) code =
        .ok (some ⟨5, added⟩) ∧
      patch_increment_region (.instr (.mk ln a l) ::
        .instr (.mk "STORE_FAST" (.strArg s1) ls1) ::
        .instr (.mk "LOAD_FAST" (.strArg s1) ls2) ::
        .instr (.mk sg u1a l1) ::
        .instr (.mk "STORE_FAST" (.strArg s2) ls3) ::
        .instr (.mk "LOAD_FAST" (.strArg s2) ls4) ::
        .instr (.mk sg u2a l2) :: rest) code =
        .ok (some ⟨7, added⟩) := by
  have hu1 : ((Instr.mk sg u1a l1).name == "STORE_FAST") = false := by
    simpa [Instr.name] using unary_not_store sg ip hu
  have hu2 : ((Instr.mk sg u2a l2).name == "STORE_FAST") = false := by
    simpa [Instr.name] using unary_not_store sg ip hu
  refine ⟨_,
    pir_marker (.mk ln a l) (.mk sg u1a l1) (.mk sg u2a l2) rest code ip st
      (by simpa [Instr.name] using hu) (by simp [Instr.name])
      (by simpa [Instr.name] using hst),
    pir_of_elide _ code (.mk ln a l) (.mk sg u1a l1) (.mk sg u2a l2) rest 5
      ip st
      (elide_pair_after_load (.mk ln a l) (.mk sg u1a l1) (.mk sg u2a l2)
        s1 ls1 ls2 rest hp1 hu2)
      (by simpa [Instr.name] using hu) (by simp [Instr.name])
      (by simpa [Instr.name] using hst),
    pir_of_elide _ code (.mk ln a l) (.mk sg u1a l1) (.mk sg u2a l2) rest 5
      ip st
      (elide_pair_after_sign (.mk ln a l) (.mk sg u1a l1) (.mk sg u2a l2)
        s2 ls3 ls4 rest hp2 hu1)
      (by simpa [Instr.name] using hu) (by simp [Instr.name])
      (by simpa [Instr.name] using hst),
    pir_of_elide _ code (.mk ln a l) (.mk sg u1a l1) (.mk sg u2a l2) rest 7
      ip st
      (elide_pair_both (.mk ln a l) (.mk sg u1a l1) (.mk sg u2a l2)
        s1 s2 ls1 ls2 ls3 ls4 rest hp1 hp2)
      (by simpa [Instr.name] using hu) (by simp [Instr.name])
      (by simpa [Instr.name] using hst)⟩

/-- Witness for C6 at a local increment with the standard pytest temporary
names. -/
theorem artifact_tolerance_witness :
    ∃ added : List BItem,
      patch_increment_region
        [.instr (.mk "LOAD_FAST" (.strArg "x") (some 3)),
         .instr (.mk "UNARY_POSITIVE" .unset (some 3)),
         .instr (.mk "UNARY_POSITIVE" .unset (some 3))] (.mk "t.py" "f" []) =
        .ok (some ⟨3, added⟩) ∧
      patch_increment_region
        [.instr (.mk "LOAD_FAST" (.strArg "x") (some 3)),
         .instr (.mk "STORE_FAST" (.strArg "@py_assert1") (some 3)),
         .instr (.mk "LOAD_FAST" (.strArg "@py_assert1") (some 3)),
         .instr (.mk "UNARY_POSITIVE" .unset (some 3)),
         .instr (.mk "UNARY_POSITIVE" .unset (some 3))] (.mk "t.py" "f" []) =
        .ok (some ⟨5, added⟩) ∧
      patch_increment_region
        [.instr (.mk "LOAD_FAST" (.strArg "x") (some 3)),
         .instr (.mk "UNARY_POSITIVE" .unset (some 3)),
         .instr (.mk "STORE_FAST" (.strArg "@py_assert2") (some 3)),
         .instr (.mk "LOAD_FAST" (.strArg "@py_assert2") (some 3)),
         .instr (.mk "UNARY_POSITIVE" .unset (some 3))] (.mk "t.py" "f" []) =
        .ok (some ⟨5, added⟩) ∧
      patch_increment_region
        [.instr (.mk "LOAD_FAST" (.strArg "x") (some 3)),
         .instr (.mk "STORE_FAST" (.strArg "@py_assert1") (some 3)),
         .instr (.mk "LOAD_FAST" (.strArg "@py_assert1") (some 3)),
         .instr (.mk "UNARY_POSITIVE" .unset (some 3)),
         .instr (.mk "STORE_FAST" (.strArg "@py_assert2") (some 3)),
         .instr (.mk "LOAD_FAST" (.strArg "@py_assert2") (some 3)),
         .instr (.mk "UNARY_POSITIVE" .unset (some 3))] (.mk "t.py" "f" []) =
        .ok (some ⟨7, added⟩) :=
  artifact_tolerance "LOAD_FAST" "STORE_FAST" "UNARY_POSITIVE" "INPLACE_ADD"
    (.strArg "x") .unset .unset (some 3) (some 3) (some 3) (some 3) (some 3)
    (some 3) (some 3) "@py_assert1" "@py_assert2" [] (.mk "t.py" "f" [])
    (by decide) (by decide) (by decide) (by decide)

/-- C3 counterexample: for the subscript addressing form the replacement
emitted for a recognized marker pops below the stack level the replaced
instructions started from — its lowest reached level relative to entry is
-1 (the final `STORE_SUBSCR` consumes the container and index that were on
the stack before the marker), so the claimed bound of never going below
level 0 fails.  (The replaced instructions themselves reach -2.) -/
theorem replacement_dips_below_entry_level :
    patch_increment_region
      [.instr (.mk "BINARY_SUBSCR" .unset (some 3)),
       .instr (.mk "UNARY_POSITIVE" .unset (some 3)),
       .instr (.mk "UNARY_POSITIVE" .unset (some 3))] (.mk "t.py" "f" []) =
      .ok (some ⟨3,
        [BItem.setLineno (some 3),
         .instr (.mk "DUP_TOP_TWO" .unset none),
         .instr (.mk "BUILD_TUPLE" (.intArg 2) none),
         .instr (.mk "ROT_THREE" .unset none),
         .instr (.mk "BINARY_SUBSCR" .unset (some 3)),
         .instr (.mk "LOAD_CONST" (.intArg 1) none),
         .instr (.mk "INPLACE_ADD" .unset none),
         .instr (.mk "DUP_TOP" .unset none),
         .instr (.mk "ROT_THREE" .unset none),
         .instr (.mk "ROT_THREE" .unset none),
         .instr (.mk "UNPACK_SEQUENCE" (.intArg 2) none),
         .instr (.mk "ROT_TWO" .unset none),
         .instr (.mk "STORE_SUBSCR" .unset none)]⟩) ∧
    stackLow
      [BItem.setLineno (some 3),
       .instr (.mk "DUP_TOP_TWO" .unset none),
       .instr (.mk "BUILD_TUPLE" (.intArg 2) none),
       .instr (.mk "ROT_THREE" .unset none),
       .instr (.mk "BINARY_SUBSCR" .unset (some 3)),
       .instr (.mk "LOAD_CONST" (.intArg 1) none),
       .instr (.mk "INPLACE_ADD" .unset none),
       .instr (.mk "DUP_TOP" .unset none),
       .instr (.mk "ROT_THREE" .unset none),
       .instr (.mk "ROT_THREE" .unset none),
       .instr (.mk "UNPACK_SEQUENCE" (.intArg 2) none),
       .instr (.mk "ROT_TWO" .unset none),
       .instr (.mk "STORE_SUBSCR" .unset none)] 0 = -1 ∧
    ¬(0 ≤ (-1 : Int)) :=
  ⟨rfl, by decide, by decide⟩

/-- C3 (amended): for every recognized marker of each of the four
addressing forms, the net stack depth contributed by the emitted
replacement equals the net depth the replaced load-plus-two-signs would
have contributed, and at no intermediate point does the replacement pop
below the lowest stack level the replaced instructions themselves would
reach (for local/name/global/deref forms that level is the entry level;
for attribute and subscript both sequences reach below entry, the
replacement no deeper than the original). -/
theorem replacement_stack_effect (ln sg : String) (a u1a u2a : Arg)
    (l l1 l2 : Option Nat) (rest : List BItem) (code : Code) (ip st : String)
    (hst : LOAD_TO_STORE_OP ln = some st)
    (hu : UNARY_TO_INPLACE_OP sg = some ip) :
    ∃ p : Patch,
      patch_increment_region (.instr (.mk ln a l) ::
        .instr (.mk sg u1a l1) :: .instr (.mk sg u2a l2) :: rest) code =
        .ok (some p) ∧
      netEffect p.added =
        netEffect [.instr (.mk ln a l), .instr (.mk sg u1a l1),
          .instr (.mk sg u2a l2)] ∧
      stackLow p.added 0 ≥
        stackLow [.instr (.mk ln a l), .instr (.mk sg u1a l1),
          .instr (.mk sg u2a l2)] 0 := by
  refine ⟨_,
    pir_marker (.mk ln a l) (.mk sg u1a l1) (.mk sg u2a l2) rest code ip st
      (by simpa [Instr.name] using hu) (by simp [Instr.name])
      (by simpa [Instr.name] using hst), ?_, ?_⟩ <;>
  · rcases load_op_cases ln st hst with ⟨e1, e2⟩ | ⟨e1, e2⟩ | ⟨e1, e2⟩ |
      ⟨e1, e2⟩ | ⟨e1, e2⟩ | ⟨e1, e2⟩ <;> subst e1 <;> subst e2 <;>
    rcases unary_op_cases sg ip hu with ⟨e3, e4⟩ | ⟨e3, e4⟩ <;>
      subst e3 <;> subst e4 <;>
    · simp [Instr.name, Instr.arg, Instr.lineno, PRE_LOAD_HOOK, PRE_STORE_HOOK,
        netEffect, stackLow, itemPopsPushes, instrPopsPushes]
      try norm_num [min_def]

/-- Witness for C3 (amended) at the attribute form with decrement. -/
theorem replacement_stack_effect_witness :
    ∃ p : Patch,
      patch_increment_region
        [.instr (.mk "LOAD_ATTR" (.strArg "fld") (some 5)),
         .instr (.mk "UNARY_NEGATIVE" .unset (some 5)),
         .instr (.mk "UNARY_NEGATIVE" .unset (some 5))] (.mk "t.py" "g" []) =
        .ok (some p) ∧
      netEffect p.added =
        netEffect [.instr (.mk "LOAD_ATTR" (.strArg "fld") (some 5)),
          .instr (.mk "UNARY_NEGATIVE" .unset (some 5)),
          .instr (.mk "UNARY_NEGATIVE" .unset (some 5))] ∧
      stackLow p.added 0 ≥
        stackLow [.instr (.mk "LOAD_ATTR" (.strArg "fld") (some 5)),
          .instr (.mk "UNARY_NEGATIVE" .unset (some 5)),
          .instr (.mk "UNARY_NEGATIVE" .unset (some 5))] 0 :=
  replacement_stack_effect "LOAD_ATTR" "UNARY_NEGATIVE" (.strArg "fld")
    .unset .unset (some 5) (some 5) (some 5) [] (.mk "t.py" "g" [])
    "INPLACE_SUBTRACT" "STORE_ATTR" (by decide) (by decide)

/-- C4 counterexample: for a local-variable marker the net stack effect of
the emitted replacement equals the net effect of the three replaced
instructions — both are +1 — and is therefore not that net plus one
additional residual. -/
theorem replacement_net_not_plus_one :
    patch_increment_region
      [.instr (.mk "LOAD_FAST" (.strArg "x") (some 3)),
       .instr (.mk "UNARY_POSITIVE" .unset (some 3)),
       .instr (.mk "UNARY_POSITIVE" .unset (some 3))] (.mk "t.py" "f" []) =
      .ok (some ⟨3,
        [BItem.setLineno (some 3),
         .instr (.mk "LOAD_FAST" (.strArg "x") (some 3)),
         .instr (.mk "LOAD_CONST" (.intArg 1) none),
         .instr (.mk "INPLACE_ADD" .unset none),
         .instr (.mk "DUP_TOP" .unset none),
         .instr (.mk "STORE_FAST" (.strArg "x") none)]⟩) ∧
    netEffect
      [BItem.setLineno (some 3),
       .instr (.mk "LOAD_FAST" (.strArg "x") (some 3)),
       .instr (.mk "LOAD_CONST" (.intArg 1) none),
       .instr (.mk "INPLACE_ADD" .unset none),
       .instr (.mk "DUP_TOP" .unset none),
       .instr (.mk "STORE_FAST" (.strArg "x") none)] = 1 ∧
    netEffect
      [BItem.instr (.mk "LOAD_FAST" (.strArg "x") (some 3)),
       .instr (.mk "UNARY_POSITIVE" .unset (some 3)),
       .instr (.mk "UNARY_POSITIVE" .unset (some 3))] = 1 ∧
    ¬((1 : Int) = 1 + 1) :=
  ⟨rfl, by decide, by decide, by decide⟩

/-- C4 (amended): for every recognized marker the net stack effect of the
synthesized replacement equals the net effect of the three instructions it
replaces; the single residual value on the stack — the post-mutation
result duplicated by `DUP_TOP` before the store — is the same one residual
the original marker's expression value accounts for, not an extra one. -/
theorem replacement_net_effect_equal (ln sg : String) (a u1a u2a : Arg)
    (l l1 l2 : Option Nat) (rest : List BItem) (code : Code) (ip st : String)
    (hst : LOAD_TO_STORE_OP ln = some st)
    (hu : UNARY_TO_INPLACE_OP sg = some ip) :
    ∃ p : Patch,
      patch_increment_region (.instr (.mk ln a l) ::
        .instr (.mk sg u1a l1) :: .instr (.mk sg u2a l2) :: rest) code =
        .ok (some p) ∧
      netEffect p.added =
        netEffect [.instr (.mk ln a l), .instr (.mk sg u1a l1),
          .instr (.mk sg u2a l2)] := by
  refine ⟨_,
    pir_marker (.mk ln a l) (.mk sg u1a l1) (.mk sg u2a l2) rest code ip st
      (by simpa [Instr.name] using hu) (by simp [Instr.name])
      (by simpa [Instr.name] using hst), ?_⟩
  rcases load_op_cases ln st hst with ⟨e1, e2⟩ | ⟨e1, e2⟩ | ⟨e1, e2⟩ |
      ⟨e1, e2⟩ | ⟨e1, e2⟩ | ⟨e1, e2⟩ <;> subst e1 <;> subst e2 <;>
    rcases unary_op_cases sg ip hu with ⟨e3, e4⟩ | ⟨e3, e4⟩ <;>
      subst e3 <;> subst e4 <;>
    · simp [Instr.name, Instr.arg, Instr.lineno, PRE_LOAD_HOOK, PRE_STORE_HOOK,
        netEffect, itemPopsPushes, instrPopsPushes]

/-- Witness for C4 (amended) at the global form with increment. -/
theorem replacement_net_effect_equal_witness :
    ∃ p : Patch,
      patch_increment_region
        [.instr (.mk "LOAD_GLOBAL" (.strArg "g") (some 7)),
         .instr (.mk "UNARY_POSITIVE" .unset (some 7)),
         .instr (.mk "UNARY_POSITIVE" .unset (some 7))] (.mk "t.py" "h" []) =
        .ok (some p) ∧
      netEffect p.added =
        netEffect [.instr (.mk "LOAD_GLOBAL" (.strArg "g") (some 7)),
          .instr (.mk "UNARY_POSITIVE" .unset (some 7)),
          .instr (.mk "UNARY_POSITIVE" .unset (some 7))] :=
  replacement_net_effect_equal "LOAD_GLOBAL" "UNARY_POSITIVE" (.strArg "g")
    .unset .unset (some 7) (some 7) (some 7) [] (.mk "t.py" "h" [])
    "INPLACE_ADD" "STORE_GLOBAL" (by decide) (by decide)

/-- `List.any` over a mapped list (general form over two types). -/
theorem list_any_map {α β : Type} (f : α → β) (l : List α) (p : β → Bool) :
    (l.map f).any p = l.any (fun x => p (f x)) := by
  induction l with
  | nil => rfl
  | cons x xs ih => simp [ih]

/-- The meta-path loop wraps the loader of exactly the first spec found by
a finder other than `PatchingFinder` itself. -/
theorem find_spec_loop_eq (mp : List MetaPathEntry) (fullname : String) :
    find_spec_loop mp fullname =
      (meta_path_lookup mp fullname).map
        (fun sp => ⟨PatchingLoader sp.loader⟩) := by
  induction mp with
  | nil => rfl
  | cons e rest ih =>
    cases e with
    | self => simpa [find_spec_loop, meta_path_lookup] using ih
    | finder fn =>
      cases hf : fn fullname <;>
        simp [find_spec_loop, meta_path_lookup, hf, ih]

/-- C8: for a registered set of import paths (the empty string is not a
valid import path, hence excluded) and any module name, `find_spec`
intercepts the module if and only if some dotted prefix of the name — the
full name itself or an ancestor package path — is registered: it then
returns the first spec produced by another finder with its loader wrapped
so `get_code` is piped through `patch_code`, while for all other names it
returns `None`; `get_source` is always forwarded unmodified. -/
theorem finder_prefix_wrapping (patched : List String)
    (meta_path : List MetaPathEntry) (fullname : String)
    (hno : "" ∉ patched) :
    (is_patching_needed patched fullname =
      (claimDottedPrefixes fullname).any (fun p => patched.contains p)) ∧
    (is_patching_needed patched fullname = false →
      find_spec patched meta_path fullname = none) ∧
    (is_patching_needed patched fullname = true →
      find_spec patched meta_path fullname =
        (meta_path_lookup meta_path fullname).map
          (fun sp => ⟨PatchingLoader sp.loader⟩)) ∧
    (∀ (L : Loader) (s : String),
      (PatchingLoader L).get_source s = L.get_source s) ∧
    (∀ (L : Loader) (s : String),
      (PatchingLoader L).get_code s = (L.get_code s).bind patch_code) := by
  have h0 : patched.contains "" = false := by
    rcases h : patched.contains "" with _ | _
    · rfl
    · exact absurd (by simpa using h) hno
  refine ⟨?_, ?_, ?_, fun L s => rfl, fun L s => rfl⟩
  · rw [is_patching_needed, claimDottedPrefixes]
    simp only [List.range_succ_eq_map, List.any_cons, List.any_map,
      List.take_zero, Function.comp]
    rw [show String.intercalate "." ([] : List String) = "" from rfl]
    rw [h0]
    rw [list_any_map]
    simp [Function.comp_def, Nat.succ_eq_add_one]
  · intro h
    rw [find_spec, h]
    rfl
  · intro h
    rw [find_spec, h]
    simp only [if_true]
    exact find_spec_loop_eq meta_path fullname

/-- Witness for C8 on a registered package `pkg`, a meta path holding the
patching finder itself and one ordinary finder, and the module `pkg.mod`. -/
theorem finder_prefix_wrapping_witness :
    (is_patching_needed ["pkg"] "pkg.mod" =
      (claimDottedPrefixes "pkg.mod").any (fun p => (["pkg"] : List String).contains p)) ∧
    (is_patching_needed ["pkg"] "pkg.mod" = false →
      find_spec ["pkg"]
        [.self, .finder (fun _ => some ⟨⟨fun _ => .ok (.mk "m.py" "m" []),
          fun _ => none⟩⟩)] "pkg.mod" = none) ∧
    (is_patching_needed ["pkg"] "pkg.mod" = true →
      find_spec ["pkg"]
        [.self, .finder (fun _ => some ⟨⟨fun _ => .ok (.mk "m.py" "m" []),
          fun _ => none⟩⟩)] "pkg.mod" =
        (meta_path_lookup
          [.self, .finder (fun _ => some ⟨⟨fun _ => .ok (.mk "m.py" "m" []),
            fun _ => none⟩⟩)] "pkg.mod").map
          (fun sp => ⟨PatchingLoader sp.loader⟩)) ∧
    (∀ (L : Loader) (s : String),
      (PatchingLoader L).get_source s = L.get_source s) ∧
    (∀ (L : Loader) (s : String),
      (PatchingLoader L).get_code s = (L.get_code s).bind patch_code) :=
  finder_prefix_wrapping ["pkg"]
    [.self, .finder (fun _ => some ⟨⟨fun _ => .ok (.mk "m.py" "m" []),
      fun _ => none⟩⟩)] "pkg.mod" (by decide)
